import Mathlib

set_option linter.unusedVariables false

/-!
Shallow embedding of `src/src/caffe/blob.cpp` (the tensor container of the
caffe fork): shape/capacity management (`Blob::Reshape`), buffer sharing
(`Blob::ShareData` / `Blob::ShareDiff`), residency-dispatched numeric
operations (`Update`, `asum_*`, `sumsq_*`, `scale_*`), proto round-trip
(`ToProto` / `FromProto`) and the legacy shape comparison
(`BlobBase::ShapeEquals`).

Modelling conventions:
* `int_tp` is `Int` (build without `USE_INDEX_64`: `int_tp` is a 32-bit
  signed integer, `INT_MAX = 2147483647`, `sizeof(int_tp) = 4`); the
  overflow CHECK in `Reshape` keeps every successful count inside that
  range, so plain `Int` arithmetic is exact.
* element values are `ℚ` (the floating payloads are copied verbatim by
  every modelled operation, so an exact numeric carrier is faithful).
* a `SyncedMemory` object is split into an immutable handle `MemRef`
  (identity + byte size) held by the blob, and a `MemState` (residency
  head + contents) stored in an association-list `Heap` keyed by the
  handle id.  `shared_ptr` reassignment is handle reassignment.
* fatal failures (`CHECK`, `LOG(FATAL)`, `NOT_IMPLEMENTED`) are
  `Except.error`; the process dies there, so no post-failure state
  escapes.
* accelerator (GPU) kernels of the device collaborator compute the same
  reductions as the host BLAS helpers; they are given separate
  definitions (`device_*`).
* a `const` host read (`cpu_data()`) returns zeroes for an
  `UNINITIALIZED` buffer (`SyncedMemory::to_cpu` zero-fills fresh host
  memory); the collaborator-internal head transition of such a read is
  not tracked.  Mutable host accesses (`mutable_cpu_data()`) set the
  head to `HEAD_AT_CPU`.
-/

/-- `NOT_IMPLEMENTED` macro message. -/
def errNotImplemented : String := "Not Implemented Yet"

/-- `CHECK_LE(shape.size(), kMaxBlobAxes)` failure. -/
def errMaxAxes : String := "CHECK failed: shape.size() <= kMaxBlobAxes"

/-- `CHECK_GE(shape[i], 0)` failure. -/
def errNegativeExtent : String := "CHECK failed: shape[i] >= 0"

/-- `CHECK_LE(shape[i], INT_MAX / count_)` failure. -/
def errOverflow : String := "blob size exceeds INT_MAX"

/-- `LOG(FATAL) << "Syncedmem not initialized."` in `Blob::Update`. -/
def errUninitMem : String := "Syncedmem not initialized."

/-- `CHECK_EQ(count_, other.count())` failure in Share. -/
def errCountEq : String := "CHECK failed: count_ == other.count()"

/-- `CHECK(data_)` failure. -/
def errNullData : String := "CHECK failed: data_"

/-- `CHECK(diff_)` failure. -/
def errNullDiff : String := "CHECK failed: diff_"

/-- Dereference of a handle with no backing memory object. -/
def errDangling : String := "dangling SyncedMemory handle"

/-- `CHECK(ShapeEquals(proto))` failure in `FromProto`. -/
def errShapeMismatch : String := "shape mismatch (reshape not set)"

/-- `CHECK_EQ(count_, proto.data_size())` failure. -/
def errCountData : String := "CHECK failed: count_ == proto.data_size()"

/-- `CHECK_EQ(count_, proto.double_data_size())` failure. -/
def errCountDoubleData : String := "CHECK failed: count_ == proto.double_data_size()"

/-- `CHECK_EQ(count_, proto.diff_size())` failure. -/
def errCountDiff : String := "CHECK failed: count_ == proto.diff_size()"

/-- `CHECK_EQ(count_, proto.double_diff_size())` failure. -/
def errCountDoubleDiff : String := "CHECK failed: count_ == proto.double_diff_size()"

/-- Out-of-bounds read of `shape_stride_[i]` in `ToProto`. -/
def errStrideOOB : String := "out-of-bounds read: shape_stride_"

deriving instance DecidableEq for Except

/-- `Except.isOk` as a Bool, for stating success of fallible operations. -/
def isOkB {α : Type} (e : Except String α) : Bool :=
  match e with
  | .ok _ => true
  | .error _ => false

/-- The element types the source instantiates `Blob` at
(`INSTANTIATE_CLASS_1T`: `half_fp`, `float`, `double` and the eight
fixed-width integer types). -/
inductive DtypeK where
  | half | float32 | double64
  | i8 | i16 | i32 | i64
  | u8 | u16 | u32 | u64
deriving DecidableEq, Repr

/-- The types whose `Update` / `asum_*` / `sumsq_*` / `scale_*`
specializations are `NOT_IMPLEMENTED` in the source (all integer
types); the generic floating bodies cover `half_fp`, `float`,
`double`. -/
def DtypeK.isInteger : DtypeK → Bool
  | .half | .float32 | .double64 => false
  | _ => true

/-- `sizeof(Dtype)` in bytes. -/
def DtypeK.size : DtypeK → Nat
  | .half => 2
  | .float32 => 4
  | .double64 => 8
  | .i8 => 1
  | .i16 => 2
  | .i32 => 4
  | .i64 => 8
  | .u8 => 1
  | .u16 => 2
  | .u32 => 4
  | .u64 => 8

/-- Modelled from the spec: `kMaxBlobAxes` (the spec's `kMaxAxes`, the
fixed maximum rank) is declared in `caffe/blob.hpp`, which is not under
`src/`; upstream value 32. -/
def kMaxBlobAxes : Nat := 32

/-- `INT_MAX` (build without `USE_INDEX_64`). -/
def IntTpMax : Int := 2147483647

/-- `sizeof(int_tp)` (build without `USE_INDEX_64`). -/
def sizeof_int_tp : Nat := 4

/-- Residency state of a `SyncedMemory` buffer (`SyncedMemory::head()`). -/
inductive SyncedHead where
  | UNINITIALIZED | HEAD_AT_CPU | HEAD_AT_GPU | SYNCED
deriving DecidableEq, Repr

/-- Handle to a `SyncedMemory` object: identity (for aliasing /
reallocation reasoning) and allocated byte size (`SyncedMemory::size()`). -/
structure MemRef where
  id : Nat
  size : Nat
deriving DecidableEq, Repr

/-- Mutable state of a `SyncedMemory` object: residency head and the
logical element contents. -/
structure MemState where
  head : SyncedHead
  vals : List ℚ
deriving DecidableEq, Repr

/-- The store of live `SyncedMemory` objects, keyed by handle id. -/
abbrev Heap := List (Nat × MemState)

/-- Look up the memory object behind a handle id. -/
def Heap.get? (h : Heap) (i : Nat) : Option MemState :=
  (h.find? (fun q => q.1 == i)).map (fun q => q.2)

/-- Replace (or create) the memory object behind a handle id. -/
def Heap.set (h : Heap) (i : Nat) (st : MemState) : Heap :=
  (i, st) :: h.filter (fun q => q.1 != i)

/-- The tensor container `Blob<Dtype>` (fields of `Blob` / `BlobBase`):
shape metadata, logical `count_`, allocated `capacity_`, and the
`shared_ptr<SyncedMemory>` handles for values (`data_`), gradients
(`diff_`) and the on-device shape mirror (`shape_data_`, whose integer
contents are tracked in `shape_data_vals_`). -/
structure Blob where
  dtype : DtypeK
  shape_ : List Int
  shape_stride_ : List Int
  count_ : Int
  capacity_ : Int
  data_ : Option MemRef
  diff_ : Option MemRef
  shape_data_ : Option MemRef
  shape_data_vals_ : List Int
deriving DecidableEq, Repr

/-- The element-count loop of `Blob::Reshape` (blob.cpp lines 42-54):
for each extent, `CHECK_GE(shape[i], 0)`, then (while the running
product is nonzero) `CHECK_LE(shape[i], INT_MAX / count_)`, then
`count_ *= shape[i]`. -/
def countLoop : List Int → Int → Except String Int
  | [], c => .ok c
  | x :: xs, c =>
    if x < 0 then .error errNegativeExtent
    else if c ≠ 0 ∧ IntTpMax.tdiv c < x then .error errOverflow
    else countLoop xs (c * x)

/-- The lazy (re)allocation of the shape mirror buffer in `Blob::Reshape`
(blob.cpp lines 37-40): reallocate when absent or too small, else keep.
Returns the handle, the previous contents of the buffer now in use, and
the next fresh id. -/
def allocShapeData (b : Blob) (len fresh : Nat) : MemRef × List Int × Nat :=
  match b.shape_data_ with
  | none => (⟨fresh, len * sizeof_int_tp⟩, [], fresh + 1)
  | some m =>
    if m.size < len * sizeof_int_tp then (⟨fresh, len * sizeof_int_tp⟩, [], fresh + 1)
    else (m, b.shape_data_vals_, fresh)

/-- The state change of a successful `Blob::Reshape` once `count_` has
been computed (blob.cpp lines 36-61): write `shape_`, refresh the shape
mirror, then either grow — replace `data_` and `diff_` by fresh
`capacity_ * sizeof(Dtype)`-byte `SyncedMemory` allocations and return
`true` — or keep both buffers and return `false`. -/
def Blob.reshapeCommit (b : Blob) (shape : List Int) (heap : Heap) (fresh : Nat)
    (count : Int) : Blob × Bool × Heap × Nat :=
  let ad := allocShapeData b shape.length fresh
  let b1 : Blob :=
    { b with shape_ := shape, count_ := count, shape_data_ := some ad.1,
             shape_data_vals_ := shape ++ ad.2.1.drop shape.length }
  if b.capacity_ < count then
    ({ b1 with capacity_ := count,
               data_ := some ⟨ad.2.2, count.toNat * b.dtype.size⟩,
               diff_ := some ⟨ad.2.2 + 1, count.toNat * b.dtype.size⟩ },
     true,
     (heap.set ad.2.2 ⟨.UNINITIALIZED, []⟩).set (ad.2.2 + 1) ⟨.UNINITIALIZED, []⟩,
     ad.2.2 + 2)
  else (b1, false, heap, ad.2.2)

/-- `Blob::Reshape(const vector<int_tp>& shape, const vector<int_tp>&
shape_stride)` (blob.cpp lines 31-62).  The `shape_stride` argument is
accepted and ignored, exactly as in the source.  Fresh `SyncedMemory`
ids are drawn from `fresh`.  In the source the shape mirror is
allocated before the count loop; a failing CHECK is fatal, so no state
of a failed call is observable and the allocation is modelled on the
success path only (inside `reshapeCommit`). -/
def Blob.Reshape (b : Blob) (shape shape_stride : List Int) (heap : Heap) (fresh : Nat) :
    Except String (Blob × Bool × Heap × Nat) :=
  if kMaxBlobAxes < shape.length then .error errMaxAxes
  else
    match countLoop shape 1 with
    | .error e => .error e
    | .ok count => .ok (b.reshapeCommit shape heap fresh count)

/-- `Blob::Blob(const vector<int_tp>& shape, Device *dev)` (blob.cpp
lines 107-113): `capacity_ = 0` then `Reshape(shape)`; ids start at 0. -/
def Blob.construct (dtype : DtypeK) (shape : List Int) :
    Except String (Blob × Heap × Nat) :=
  let b0 : Blob :=
    { dtype := dtype, shape_ := [], shape_stride_ := [], count_ := 0, capacity_ := 0,
      data_ := none, diff_ := none, shape_data_ := none, shape_data_vals_ := [] }
  match b0.Reshape shape shape [] 0 with
  | .error e => .error e
  | .ok (b, _, h, f) => .ok (b, h, f)

/-- All SyncedMemory ids held by the blob are below `n` (well-formedness
of the fresh-id supply). -/
def Blob.idsBelow (b : Blob) (n : Nat) : Bool :=
  (b.data_.all fun m => decide (m.id < n)) && (b.diff_.all fun m => decide (m.id < n))

/-- `Blob::ShareData(const Blob& other)` (blob.cpp lines 197-201):
`CHECK_EQ(count_, other.count()); data_ = other.data();`.  No heap is
touched: sharing reassigns the handle and copies no element data. -/
def Blob.ShareData (b other : Blob) : Except String Blob :=
  if b.count_ = other.count_ then .ok { b with data_ := other.data_ }
  else .error errCountEq

/-- `Blob::ShareDiff(const Blob& other)` (blob.cpp lines 203-207). -/
def Blob.ShareDiff (b other : Blob) : Except String Blob :=
  if b.count_ = other.count_ then .ok { b with diff_ := other.diff_ }
  else .error errCountEq

/-- `caffe_cpu_asum(n, x)`: sum of absolute values of the first `n`
elements (host BLAS helper collaborator). -/
def caffe_cpu_asum (n : Nat) (xs : List ℚ) : ℚ :=
  ((xs.take n).map (fun x => |x|)).sum

/-- `caffe_cpu_dot(n, x, y)` (host BLAS helper collaborator). -/
def caffe_cpu_dot (n : Nat) (xs ys : List ℚ) : ℚ :=
  (((xs.take n).zip (ys.take n)).map (fun q => q.1 * q.2)).sum

/-- `caffe_axpy(n, alpha, x, y)`: `y[i] += alpha * x[i]` for `i < n`
(host BLAS helper collaborator). -/
def caffe_axpy (n : Nat) (alpha : ℚ) (x y : List ℚ) : List ℚ :=
  List.zipWith (fun xi yi => yi + alpha * xi) (x.take n) (y.take n) ++ y.drop n

/-- `caffe_scal(n, alpha, x)`: `x[i] *= alpha` for `i < n`
(host BLAS helper collaborator). -/
def caffe_scal (n : Nat) (alpha : ℚ) (xs : List ℚ) : List ℚ :=
  (xs.take n).map (fun x => alpha * x) ++ xs.drop n

/-- `device_->asum(n, x, &out)` (accelerator collaborator, same
reduction as the host path). -/
def device_asum (n : Nat) (xs : List ℚ) : ℚ :=
  ((xs.take n).map (fun x => |x|)).sum

/-- `device_->dot(n, x, y, &out)` (accelerator collaborator). -/
def device_dot (n : Nat) (xs ys : List ℚ) : ℚ :=
  (((xs.take n).zip (ys.take n)).map (fun q => q.1 * q.2)).sum

/-- `device_->axpy(n, alpha, x, y)` (accelerator collaborator). -/
def device_axpy (n : Nat) (alpha : ℚ) (x y : List ℚ) : List ℚ :=
  List.zipWith (fun xi yi => yi + alpha * xi) (x.take n) (y.take n) ++ y.drop n

/-- `device_->scal(n, alpha, x)` (accelerator collaborator). -/
def device_scal (n : Nat) (alpha : ℚ) (xs : List ℚ) : List ℚ :=
  (xs.take n).map (fun x => alpha * x) ++ xs.drop n

/-- A `const` host read of a buffer (`SyncedMemory::cpu_data()` after
`to_cpu()`): an `UNINITIALIZED` buffer is freshly allocated and
zero-filled, otherwise the resident contents are returned. -/
def cpuRead (st : MemState) (n : Nat) : List ℚ :=
  match st.head with
  | .UNINITIALIZED => List.replicate n 0
  | _ => st.vals.take n

/-- `Blob::cpu_data()` (blob.cpp lines 126-130): `CHECK(data_)` then a
const host read of `count_` elements. -/
def Blob.cpu_data_read (b : Blob) (h : Heap) : Except String (List ℚ) :=
  match b.data_ with
  | none => .error errNullData
  | some m =>
    match h.get? m.id with
    | none => .error errDangling
    | some st => .ok (cpuRead st b.count_.toNat)

/-- `Blob::cpu_diff()` (blob.cpp lines 161-165). -/
def Blob.cpu_diff_read (b : Blob) (h : Heap) : Except String (List ℚ) :=
  match b.diff_ with
  | none => .error errNullDiff
  | some m =>
    match h.get? m.id with
    | none => .error errDangling
    | some st => .ok (cpuRead st b.count_.toNat)

/-- `Blob::Update()` (blob.cpp lines 227-253 and the integer
specializations at lines 255-278): integer element types are
`NOT_IMPLEMENTED`; otherwise dispatch on `data_->head()` —
`HEAD_AT_CPU` runs `caffe_axpy(count_, -1, diff, data)` on the host,
`HEAD_AT_GPU`/`SYNCED` runs `device_->axpy` (the mutable access leaves
the head on the executing side), and the remaining head state
(`UNINITIALIZED`) hits the `default:` case, `LOG(FATAL) << "Syncedmem
not initialized."`. -/
def Blob.Update (b : Blob) (h : Heap) : Except String Heap :=
  if b.dtype.isInteger then .error errNotImplemented
  else
    match b.data_ with
    | none => .error errNullData
    | some dm =>
      match h.get? dm.id with
      | none => .error errDangling
      | some dst =>
        match dst.head with
        | .HEAD_AT_CPU =>
          match b.cpu_diff_read h with
          | .error e => .error e
          | .ok diffVec =>
            .ok (h.set dm.id ⟨.HEAD_AT_CPU, caffe_axpy b.count_.toNat (-1) diffVec dst.vals⟩)
        | .HEAD_AT_GPU | .SYNCED =>
          match b.diff_ with
          | none => .error errNullDiff
          | some fm =>
            match h.get? fm.id with
            | none => .error errDangling
            | some fst =>
              .ok (h.set dm.id
                ⟨.HEAD_AT_GPU, device_axpy b.count_.toNat (-1) fst.vals dst.vals⟩)
        | .UNINITIALIZED => .error errUninitMem

/-- `Blob::asum_data()` (blob.cpp lines 313-337 and the integer
specializations at lines 280-311): integer types are `NOT_IMPLEMENTED`;
a null `data_` returns 0; then dispatch on the head, with
`UNINITIALIZED` returning 0. -/
def Blob.asum_data (b : Blob) (h : Heap) : Except String ℚ :=
  if b.dtype.isInteger then .error errNotImplemented
  else
    match b.data_ with
    | none => .ok 0
    | some dm =>
      match h.get? dm.id with
      | none => .error errDangling
      | some dst =>
        match dst.head with
        | .HEAD_AT_CPU => .ok (caffe_cpu_asum b.count_.toNat (cpuRead dst b.count_.toNat))
        | .HEAD_AT_GPU | .SYNCED => .ok (device_asum b.count_.toNat dst.vals)
        | .UNINITIALIZED => .ok 0

/-- `Blob::asum_diff()` (blob.cpp lines 372-396 and the integer
specializations at lines 339-370). -/
def Blob.asum_diff (b : Blob) (h : Heap) : Except String ℚ :=
  if b.dtype.isInteger then .error errNotImplemented
  else
    match b.diff_ with
    | none => .ok 0
    | some fm =>
      match h.get? fm.id with
      | none => .error errDangling
      | some fst =>
        match fst.head with
        | .HEAD_AT_CPU => .ok (caffe_cpu_asum b.count_.toNat (cpuRead fst b.count_.toNat))
        | .HEAD_AT_GPU | .SYNCED => .ok (device_asum b.count_.toNat fst.vals)
        | .UNINITIALIZED => .ok 0

/-- `Blob::sumsq_data()` (blob.cpp lines 398-429 and the integer
specializations at lines 431-462). -/
def Blob.sumsq_data (b : Blob) (h : Heap) : Except String ℚ :=
  if b.dtype.isInteger then .error errNotImplemented
  else
    match b.data_ with
    | none => .ok 0
    | some dm =>
      match h.get? dm.id with
      | none => .error errDangling
      | some dst =>
        match dst.head with
        | .HEAD_AT_CPU =>
          .ok (caffe_cpu_dot b.count_.toNat (cpuRead dst b.count_.toNat)
                (cpuRead dst b.count_.toNat))
        | .HEAD_AT_GPU | .SYNCED => .ok (device_dot b.count_.toNat dst.vals dst.vals)
        | .UNINITIALIZED => .ok 0

/-- `Blob::sumsq_diff()` (blob.cpp lines 464-496 and the integer
specializations at lines 498-529). -/
def Blob.sumsq_diff (b : Blob) (h : Heap) : Except String ℚ :=
  if b.dtype.isInteger then .error errNotImplemented
  else
    match b.diff_ with
    | none => .ok 0
    | some fm =>
      match h.get? fm.id with
      | none => .error errDangling
      | some fst =>
        match fst.head with
        | .HEAD_AT_CPU =>
          .ok (caffe_cpu_dot b.count_.toNat (cpuRead fst b.count_.toNat)
                (cpuRead fst b.count_.toNat))
        | .HEAD_AT_GPU | .SYNCED => .ok (device_dot b.count_.toNat fst.vals fst.vals)
        | .UNINITIALIZED => .ok 0

/-- `Blob::scale_data(Dtype scale_factor)` (blob.cpp lines 531-559 and
the integer specializations at lines 561-592): integer types are
`NOT_IMPLEMENTED`; null `data_` and `UNINITIALIZED` head are no-ops;
the mutable access pins the head to the executing side. -/
def Blob.scale_data (b : Blob) (factor : ℚ) (h : Heap) : Except String Heap :=
  if b.dtype.isInteger then .error errNotImplemented
  else
    match b.data_ with
    | none => .ok h
    | some dm =>
      match h.get? dm.id with
      | none => .error errDangling
      | some dst =>
        match dst.head with
        | .HEAD_AT_CPU =>
          .ok (h.set dm.id ⟨.HEAD_AT_CPU, caffe_scal b.count_.toNat factor dst.vals⟩)
        | .HEAD_AT_GPU | .SYNCED =>
          .ok (h.set dm.id ⟨.HEAD_AT_GPU, device_scal b.count_.toNat factor dst.vals⟩)
        | .UNINITIALIZED => .ok h

/-- `Blob::scale_diff(Dtype scale_factor)` (blob.cpp lines 594-622 and
the integer specializations at lines 624-654). -/
def Blob.scale_diff (b : Blob) (factor : ℚ) (h : Heap) : Except String Heap :=
  if b.dtype.isInteger then .error errNotImplemented
  else
    match b.diff_ with
    | none => .ok h
    | some fm =>
      match h.get? fm.id with
      | none => .error errDangling
      | some fst =>
        match fst.head with
        | .HEAD_AT_CPU =>
          .ok (h.set fm.id ⟨.HEAD_AT_CPU, caffe_scal b.count_.toNat factor fst.vals⟩)
        | .HEAD_AT_GPU | .SYNCED =>
          .ok (h.set fm.id ⟨.HEAD_AT_GPU, device_scal b.count_.toNat factor fst.vals⟩)
        | .UNINITIALIZED => .ok h

/-- The quantized accessor form `Blob::sumsq_diff(void* out)` (blob.cpp
lines 850-854): `Dtype val = sumsq_data();` — the DATA sum of squares,
not the diff's — then `net_quant_->Backward_cpu(1, &val, out)`.  The
quantizer transform is the abstract collaborator `q`. -/
def Blob.sumsq_diff_quant (b : Blob) (h : Heap) (q : ℚ → ℚ) : Except String ℚ :=
  match b.sumsq_data h with
  | .error e => .error e
  | .ok val => .ok (q val)

/-- The proto-equivalent wire message `BlobProto`: optional legacy
4-tuple fields, explicit shape (`BlobShape` dim list) and stride,
float payloads (`data`/`diff`), double payloads
(`double_data`/`double_diff`), a packed raw payload for the remaining
element types, and the element-type tag. -/
structure BlobProto where
  num : Option Int
  channels : Option Int
  height : Option Int
  width : Option Int
  shape : List Int
  shape_stride : List Int
  data : List ℚ
  diff : List ℚ
  double_data : List ℚ
  double_diff : List ℚ
  packed_data : List ℚ
  data_type : Option DtypeK
deriving DecidableEq, Repr

/-- A `BlobProto` with every field cleared / absent. -/
def BlobProto.empty : BlobProto :=
  ⟨none, none, none, none, [], [], [], [], [], [], [], none⟩

/-- `proto.has_num() || proto.has_channels() || proto.has_height() ||
proto.has_width()`: the message uses the deprecated legacy 4-tuple
encoding. -/
def hasLegacyFields (p : BlobProto) : Bool :=
  p.num.isSome || p.channels.isSome || p.height.isSome || p.width.isSome

/-- Modelled from the spec: `BlobBase::LegacyShape(int index)` is
defined in `caffe/blob.hpp`, which is not under `src/`.  Per the spec,
legacy axes index from the END of the local shape, and axes beyond the
local rank (`index < -num_axes`) are treated as extent 1.  Here `k`
stands for the negative index `-k` (so `LegacyShape shape 4` is the
source's `LegacyShape(-4)`). -/
def LegacyShape (shape : List Int) (k : Nat) : Int :=
  if shape.length < k then 1 else shape.getD (shape.length - k) 0

/-- `BlobBase::ShapeEquals(const BlobProto& other)` (blob.cpp lines
656-675): with legacy fields present, compare rank `≤ 4` and the four
trailing axes against num/channels/height/width; otherwise compare the
explicit shape list element-wise. -/
def Blob.ShapeEquals (b : Blob) (other : BlobProto) : Bool :=
  if hasLegacyFields other then
    decide (b.shape_.length ≤ 4) &&
      (LegacyShape b.shape_ 4 == other.num.getD 0) &&
      (LegacyShape b.shape_ 3 == other.channels.getD 0) &&
      (LegacyShape b.shape_ 2 == other.height.getD 0) &&
      (LegacyShape b.shape_ 1 == other.width.getD 0)
  else b.shape_ == other.shape

/-- The target shape derived from a proto message in the reshaping
branch of `Blob::FromProto` (blob.cpp lines 714-730): the legacy
4-tuple when any legacy field is present, else the explicit dim list. -/
def protoShapeOf (p : BlobProto) : List Int :=
  if hasLegacyFields p then
    [p.num.getD 0, p.channels.getD 0, p.height.getD 0, p.width.getD 0]
  else p.shape

/-- `Blob::FromProto(const BlobProto& proto, bool reshape)` (blob.cpp
lines 712-761).  When `reshape` is set, derive the shape from the
message and `Reshape` to it; otherwise `CHECK(ShapeEquals(proto))`.
Then `mutable_cpu_data()` and copy the values payload (the
`double_data` encoding takes priority when non-empty), with
`CHECK_EQ(count_, payload size)`; finally, when diff content is
present (`double_diff` first, then `diff`), the same for the gradients
buffer.  Writes set the residency head to `HEAD_AT_CPU` and overwrite
the first `count_` elements. -/
def Blob.FromProto (b : Blob) (proto : BlobProto) (reshape : Bool) (h : Heap) (fresh : Nat) :
    Except String (Blob × Heap × Nat) :=
  match (if reshape then b.Reshape (protoShapeOf proto) (protoShapeOf proto) h fresh
         else if b.ShapeEquals proto then .ok (b, false, h, fresh)
         else .error errShapeMismatch) with
  | .error e => .error e
  | .ok (b1, _, h1, f1) =>
    match b1.data_ with
    | none => .error errNullData
    | some dm =>
      match h1.get? dm.id with
      | none => .error errDangling
      | some dst =>
        match (if 0 < proto.double_data.length then
                 (if b1.count_ = (proto.double_data.length : Int) then .ok proto.double_data
                  else .error errCountDoubleData)
               else
                 (if b1.count_ = (proto.data.length : Int) then .ok proto.data
                  else .error errCountData) : Except String (List ℚ)) with
        | .error e => .error e
        | .ok src =>
          if 0 < proto.double_diff.length then
            if b1.count_ = (proto.double_diff.length : Int) then
              match b1.diff_ with
              | none => .error errNullDiff
              | some fm =>
                match (h1.set dm.id
                        ⟨.HEAD_AT_CPU, src ++ dst.vals.drop src.length⟩).get? fm.id with
                | none => .error errDangling
                | some fst =>
                  .ok (b1,
                       (h1.set dm.id
                          ⟨.HEAD_AT_CPU, src ++ dst.vals.drop src.length⟩).set fm.id
                         ⟨.HEAD_AT_CPU,
                          proto.double_diff ++ fst.vals.drop proto.double_diff.length⟩,
                       f1)
            else .error errCountDoubleDiff
          else if 0 < proto.diff.length then
            if b1.count_ = (proto.diff.length : Int) then
              match b1.diff_ with
              | none => .error errNullDiff
              | some fm =>
                match (h1.set dm.id
                        ⟨.HEAD_AT_CPU, src ++ dst.vals.drop src.length⟩).get? fm.id with
                | none => .error errDangling
                | some fst =>
                  .ok (b1,
                       (h1.set dm.id
                          ⟨.HEAD_AT_CPU, src ++ dst.vals.drop src.length⟩).set fm.id
                         ⟨.HEAD_AT_CPU, proto.diff ++ fst.vals.drop proto.diff.length⟩,
                       f1)
            else .error errCountDiff
          else .ok (b1, h1.set dm.id ⟨.HEAD_AT_CPU, src ++ dst.vals.drop src.length⟩, f1)

/-- `Blob<float>::ToProto` / `Blob<double>::ToProto` / the generic
packed `Blob<Dtype>::ToProto` (blob.cpp lines 763-828), dispatched on
the element type as the source's specializations are.  Emits the shape
and stride dims (reading `shape_stride_[i]` for `i < shape_.size()`,
which requires the stride list to be at least as long as the shape),
the element-type tag and the values payload into the encoding matching
the element type; `write_diff` additionally emits the gradients
payload (for the packed encoding the source's second
`set_packed_data` call overwrites the first). -/
def Blob.ToProto (b : Blob) (h : Heap) (write_diff : Bool) : Except String BlobProto :=
  if b.shape_stride_.length < b.shape_.length then .error errStrideOOB
  else
    match b.cpu_data_read h with
    | .error e => .error e
    | .ok dataVec =>
      match (if write_diff then b.cpu_diff_read h else .ok []) with
      | .error e => .error e
      | .ok diffVec =>
        let base : BlobProto :=
          { BlobProto.empty with
              shape := b.shape_,
              shape_stride := b.shape_stride_.take b.shape_.length,
              data_type := some b.dtype }
        match b.dtype with
        | .float32 =>
          .ok { base with data := dataVec, diff := if write_diff then diffVec else [] }
        | .double64 =>
          .ok { base with double_data := dataVec,
                          double_diff := if write_diff then diffVec else [] }
        | _ =>
          .ok { base with packed_data := if write_diff then diffVec else dataVec }

/-- The last four logical axes of a shape of rank at most 4, missing
leading axes padded with extent 1 (the spec's reading of the legacy
num/channels/height/width convention). -/
def padTo4 (s : List Int) : List Int :=
  List.replicate (4 - s.length) 1 ++ s

/-- The per-step precondition of the `Reshape` count loop as the spec
words it: every extent is non-negative, and at each multiplication
step `extent[i] ≤ IntMax / count_so_far`, the check being skipped
while `count_so_far == 0`. -/
@[reducible] def stepChecks (xs : List Int) : Prop :=
  ∀ i : Nat, ∀ hi : i < xs.length,
    0 ≤ xs.get ⟨i, hi⟩ ∧
      ((xs.take i).prod ≠ 0 → xs.get ⟨i, hi⟩ ≤ IntTpMax.tdiv ((xs.take i).prod))

/-! ### Heap lemmas -/

theorem find_filter_ne (l : Heap) (i j : Nat) (hne : j ≠ i) :
    (l.filter (fun q => q.1 != i)).find? (fun q => q.1 == j)
      = l.find? (fun q => q.1 == j) := by
  induction l with
  | nil => rfl
  | cons a t ih =>
    by_cases ha : a.1 = i
    · have hij : (i == j) = false := by simp [Ne.symm hne]
      simp [List.filter_cons, ha, List.find?_cons, hij, ih]
    · cases haj : (a.1 == j) with
      | true => simp [List.filter_cons, ha, List.find?_cons, haj]
      | false => simp [List.filter_cons, ha, List.find?_cons, haj, ih]

theorem Heap.get_set_self (h : Heap) (i : Nat) (st : MemState) :
    (h.set i st).get? i = some st := by
  simp [Heap.set, Heap.get?, List.find?_cons]

theorem Heap.get_set_ne (h : Heap) (i j : Nat) (st : MemState) (hne : j ≠ i) :
    (h.set i st).get? j = h.get? j := by
  simp only [Heap.set, Heap.get?, List.find?_cons]
  have hb : ((i, st).1 == j) = false := by simp [Ne.symm hne]
  rw [hb]
  rw [find_filter_ne _ _ _ hne]

/-! ### countLoop lemmas -/

theorem countLoop_ok_prod (xs : List Int) :
    ∀ c r : Int, countLoop xs c = .ok r → r = c * xs.prod := by
  induction xs with
  | nil =>
    intro c r hcl
    simp only [countLoop] at hcl
    cases hcl
    simp
  | cons x xs ih =>
    intro c r hcl
    simp only [countLoop] at hcl
    split at hcl
    · cases hcl
    · split at hcl
      · cases hcl
      · have := ih (c * x) r hcl
        rw [this, List.prod_cons]
        ring

theorem countLoop_ok_nonneg (xs : List Int) :
    ∀ c : Int, isOkB (countLoop xs c) = true → ∀ x ∈ xs, 0 ≤ x := by
  induction xs with
  | nil => intro c _ x hx; cases hx
  | cons y xs ih =>
    intro c hok x hx
    simp only [countLoop] at hok
    split at hok
    · simp [isOkB] at hok
    · split at hok
      · simp [isOkB] at hok
      · rcases List.mem_cons.mp hx with hx | hx
        · subst hx; omega
        · exact ih (c * y) hok x hx

theorem countLoop_ok_iff (xs : List Int) :
    ∀ c : Int,
      isOkB (countLoop xs c) = true ↔
        ∀ i : Nat, ∀ hi : i < xs.length,
          0 ≤ xs.get ⟨i, hi⟩ ∧
            (c * (xs.take i).prod ≠ 0 →
              xs.get ⟨i, hi⟩ ≤ IntTpMax.tdiv (c * (xs.take i).prod)) := by
  induction xs with
  | nil =>
    intro c
    constructor
    · intro _ i hi; exact absurd hi (by simp)
    · intro _; simp [countLoop, isOkB]
  | cons x xs ih =>
    intro c
    constructor
    · intro hok i hi
      simp only [countLoop] at hok
      split at hok
      · simp [isOkB] at hok
      · split at hok
        · simp [isOkB] at hok
        · rename_i hneg hov
          match i, hi with
          | 0, hi =>
            constructor
            · show (0 : Int) ≤ x
              omega
            · intro hc0
              have hc : c ≠ 0 := by simpa using hc0
              show x ≤ IntTpMax.tdiv (c * ((x :: xs).take 0).prod)
              have hrw : c * ((x :: xs).take 0).prod = c := by simp
              rw [hrw]
              by_contra hlt
              exact hov ⟨hc, by omega⟩
          | i + 1, hi =>
            have hi2 : i < xs.length := by
              simp only [List.length_cons] at hi; omega
            have := (ih (c * x)).mp hok i hi2
            simpa [List.get_cons_succ, List.take_succ_cons, List.prod_cons, mul_assoc]
              using this
    · intro hall
      simp only [countLoop]
      have h0 := hall 0 (by simp)
      have h01 : (0 : Int) ≤ x := h0.1
      have h02 : c * ((x :: xs).take 0).prod ≠ 0 →
          x ≤ IntTpMax.tdiv (c * ((x :: xs).take 0).prod) := h0.2
      simp only [List.take_zero, List.prod_nil, mul_one] at h02
      split
      · rename_i hneg
        omega
      · split
        · rename_i hneg hov
          exfalso
          have := h02 hov.1
          have := hov.2
          omega
        · apply (ih (c * x)).mpr
          intro i hi
          have := hall (i + 1) (by simp only [List.length_cons]; omega)
          simpa [List.get_cons_succ, List.take_succ_cons, List.prod_cons, mul_assoc]
            using this

/-! ### Reshape lemmas -/

theorem allocShapeData_fresh (b : Blob) (len fr : Nat) :
    fr ≤ (allocShapeData b len fr).2.2 := by
  unfold allocShapeData
  cases b.shape_data_ with
  | none => simp
  | some m =>
    dsimp only
    split <;> simp

theorem Blob.reshapeCommit_spec (b : Blob) (s : List Int) (h : Heap) (fr : Nat)
    (count : Int) (b2 : Blob) (ch : Bool) (h2 : Heap) (f2 : Nat)
    (hc : b.reshapeCommit s h fr count = (b2, ch, h2, f2)) :
    b2.count_ = count ∧
      b2.shape_ = s ∧
      b2.dtype = b.dtype ∧
      b2.shape_stride_ = b.shape_stride_ ∧
      (ch = true ↔ b.capacity_ < count) ∧
      (ch = true →
        b2.capacity_ = count ∧
        ∃ i : Nat, fr ≤ i ∧ f2 = i + 2 ∧
          b2.data_ = some ⟨i, count.toNat * b.dtype.size⟩ ∧
          b2.diff_ = some ⟨i + 1, count.toNat * b.dtype.size⟩ ∧
          h2 = (h.set i ⟨.UNINITIALIZED, []⟩).set (i + 1) ⟨.UNINITIALIZED, []⟩) ∧
      (ch = false →
        b2.capacity_ = b.capacity_ ∧ b2.data_ = b.data_ ∧ b2.diff_ = b.diff_ ∧ h2 = h) := by
  by_cases hcap : b.capacity_ < count
  · simp only [Blob.reshapeCommit, hcap, if_true, Prod.mk.injEq] at hc
    obtain ⟨hb2, hch, hh2, hf2⟩ := hc
    subst hb2; subst hch; subst hh2; subst hf2
    refine ⟨rfl, rfl, rfl, rfl, ⟨fun _ => hcap, fun _ => rfl⟩, ?_, by simp⟩
    intro _
    exact ⟨rfl, (allocShapeData b s.length fr).2.2, allocShapeData_fresh b s.length fr,
           rfl, rfl, rfl, rfl⟩
  · simp only [Blob.reshapeCommit, hcap, if_false, Prod.mk.injEq] at hc
    obtain ⟨hb2, hch, hh2, hf2⟩ := hc
    subst hb2; subst hch; subst hh2; subst hf2
    refine ⟨rfl, rfl, rfl, rfl, ?_, by simp, fun _ => ⟨rfl, rfl, rfl, rfl⟩⟩
    constructor
    · intro hfalse; exact absurd hfalse (by simp)
    · intro hlt; exact absurd hlt hcap

theorem Blob.Reshape_ok_spec (b : Blob) (s ss : List Int) (h : Heap) (fr : Nat)
    (b2 : Blob) (ch : Bool) (h2 : Heap) (f2 : Nat)
    (hr : b.Reshape s ss h fr = .ok (b2, ch, h2, f2)) :
    s.length ≤ kMaxBlobAxes ∧
      countLoop s 1 = .ok b2.count_ ∧
      b2.shape_ = s ∧
      b2.dtype = b.dtype ∧
      b2.shape_stride_ = b.shape_stride_ ∧
      (ch = true ↔ b.capacity_ < b2.count_) ∧
      (ch = true →
        b2.capacity_ = b2.count_ ∧
        ∃ i : Nat, fr ≤ i ∧ f2 = i + 2 ∧
          b2.data_ = some ⟨i, b2.count_.toNat * b.dtype.size⟩ ∧
          b2.diff_ = some ⟨i + 1, b2.count_.toNat * b.dtype.size⟩ ∧
          h2 = (h.set i ⟨.UNINITIALIZED, []⟩).set (i + 1) ⟨.UNINITIALIZED, []⟩) ∧
      (ch = false →
        b2.capacity_ = b.capacity_ ∧ b2.data_ = b.data_ ∧ b2.diff_ = b.diff_ ∧ h2 = h) := by
  unfold Blob.Reshape at hr
  split at hr
  · exact Except.noConfusion hr
  · rename_i hlen
    split at hr
    · exact Except.noConfusion hr
    · rename_i count hcl
      simp only [Except.ok.injEq] at hr
      obtain ⟨hcnt, hsh, hdt, hstr, hiff, hgrow, hkeep⟩ :=
        b.reshapeCommit_spec s h fr count b2 ch h2 f2 hr
      subst hcnt
      exact ⟨by omega, hcl, hsh, hdt, hstr, hiff, hgrow, hkeep⟩

theorem Blob.Reshape_isOk_iff (b : Blob) (s ss : List Int) (h : Heap) (fr : Nat) :
    isOkB (b.Reshape s ss h fr) = true ↔
      s.length ≤ kMaxBlobAxes ∧ isOkB (countLoop s 1) = true := by
  unfold Blob.Reshape
  split
  · rename_i hlen
    simp only [isOkB]
    constructor
    · intro hfalse; exact absurd hfalse (by simp)
    · intro hand; omega
  · rename_i hlen
    split
    · rename_i e hcl
      rw [hcl]
      simp only [isOkB]
      constructor
      · intro hfalse; exact absurd hfalse (by simp)
      · intro hand; exact absurd hand.2 (by simp)
    · rename_i count hcl
      rw [hcl]
      simp only [isOkB]
      constructor
      · intro _; exact ⟨by omega, trivial⟩
      · intro _; trivial

theorem ne_of_idBound (o : Option MemRef) (fr i sz : Nat)
    (hb : o.all (fun m => decide (m.id < fr)) = true) (hi : fr ≤ i) :
    some (⟨i, sz⟩ : MemRef) ≠ o := by
  cases o with
  | none => simp
  | some m =>
    simp only [Option.all, decide_eq_true_eq] at hb
    intro hEq
    have hm : (⟨i, sz⟩ : MemRef) = m := Option.some.inj hEq
    have : m.id = i := by rw [← hm]
    omega

/-! ### Concrete witness inputs -/

/-- A well-formed float blob of shape `[1]` (ids 0, 1, 2 in use). -/
def c1_in : Blob :=
  ⟨.float32, [1], [1], 1, 1, some ⟨0, 4⟩, some ⟨1, 4⟩, some ⟨2, 4⟩, [1]⟩

/-- The blob produced by reshaping `c1_in` to `[2, 3]` with fresh ids
from 5. -/
def c1_out : Blob :=
  ⟨.float32, [2, 3], [1], 6, 6, some ⟨6, 24⟩, some ⟨7, 24⟩, some ⟨5, 8⟩, [2, 3]⟩

/-- The heap produced by that reshape. -/
def c1_outHeap : Heap :=
  [(7, ⟨.UNINITIALIZED, []⟩), (6, ⟨.UNINITIALIZED, []⟩)]

/-- The blob produced by reshaping `c1_in` to the empty shape. -/
def c10_out : Blob :=
  ⟨.float32, [], [1], 1, 1, some ⟨0, 4⟩, some ⟨1, 4⟩, some ⟨2, 4⟩, [1]⟩

/-! ### Claims C1, C2, C10: Reshape -/

/-- Claim C1: for every tensor and every valid shape, `Reshape` returns
`true` exactly when the newly computed element count exceeds the
current capacity, in which case it sets capacity to that count and
replaces both the values and gradients buffers with fresh allocations
of `count` elements; otherwise it returns `false` and leaves the
identity of both buffers unchanged, so capacity never decreases and
tracks the historical maximum count. -/
theorem C1_reshape_capacity_growth (b : Blob) (s ss : List Int) (h : Heap) (fr : Nat)
    (b2 : Blob) (ch : Bool) (h2 : Heap) (f2 : Nat)
    (hw : b.idsBelow fr = true)
    (hr : b.Reshape s ss h fr = .ok (b2, ch, h2, f2)) :
    (ch = true ↔ b.capacity_ < b2.count_) ∧
      (ch = true →
        b2.capacity_ = b2.count_ ∧
        ∃ m1 m2 : MemRef,
          b2.data_ = some m1 ∧ b2.diff_ = some m2 ∧
          fr ≤ m1.id ∧ fr ≤ m2.id ∧ m1.id ≠ m2.id ∧
          m1.size = b2.count_.toNat * b.dtype.size ∧
          m2.size = b2.count_.toNat * b.dtype.size ∧
          b2.data_ ≠ b.data_ ∧ b2.diff_ ≠ b.diff_) ∧
      (ch = false → b2.data_ = b.data_ ∧ b2.diff_ = b.diff_ ∧ b2.capacity_ = b.capacity_) ∧
      b.capacity_ ≤ b2.capacity_ ∧
      b2.capacity_ = max b.capacity_ b2.count_ := by
  obtain ⟨_, _, _, _, _, hiff, hgrow, hkeep⟩ :=
    Blob.Reshape_ok_spec b s ss h fr b2 ch h2 f2 hr
  have hwd : b.data_.all (fun m => decide (m.id < fr)) = true :=
    (Bool.and_eq_true _ _ |>.mp hw).1
  have hwf : b.diff_.all (fun m => decide (m.id < fr)) = true :=
    (Bool.and_eq_true _ _ |>.mp hw).2
  have hmax : b2.capacity_ = max b.capacity_ b2.count_ := by
    cases ch with
    | true =>
      have h1 := (hgrow rfl).1
      have h2 := hiff.mp rfl
      omega
    | false =>
      have h1 := (hkeep rfl).1
      have h2 : ¬ b.capacity_ < b2.count_ := fun hc => by
        have := hiff.mpr hc
        exact absurd this (by simp)
      omega
  refine ⟨hiff, ?_, fun hf => ⟨(hkeep hf).2.1, (hkeep hf).2.2.1, (hkeep hf).1⟩, by omega, hmax⟩
  intro ht
  obtain ⟨hcap, i, hfi, hf2, hdata, hdiff, hheap⟩ := hgrow ht
  refine ⟨hcap, ⟨i, b2.count_.toNat * b.dtype.size⟩, ⟨i + 1, b2.count_.toNat * b.dtype.size⟩,
          hdata, hdiff, hfi, (show fr ≤ i + 1 by omega), (show i ≠ i + 1 by omega),
          rfl, rfl, ?_, ?_⟩
  · rw [hdata]
    exact ne_of_idBound b.data_ fr i _ hwd hfi
  · rw [hdiff]
    exact ne_of_idBound b.diff_ fr (i + 1) _ hwf (by omega)

/-- Claim C1 witness: reshaping `c1_in` (capacity 1) to `[2, 3]`
(count 6) reallocates, so the reported change bit reflects the growth. -/
theorem C1_witness : c1_in.capacity_ < c1_out.count_ :=
  (C1_reshape_capacity_growth c1_in [2, 3] [2, 3] [] 5 c1_out true c1_outHeap 8
      (by decide) rfl).1.mp rfl

/-- Claim C2: `Reshape` succeeds exactly when the rank bound holds and
every extent passes the non-negativity and stepwise
`extent[i] ≤ IntMax / count_so_far` overflow checks (the division
check being skipped while the running count is 0), and on success the
tensor's count equals the product of the extents. -/
theorem C2_reshape_count_and_overflow_checks (b : Blob) (s ss : List Int) (h : Heap)
    (fr : Nat) :
    (isOkB (b.Reshape s ss h fr) = true ↔ s.length ≤ kMaxBlobAxes ∧ stepChecks s) ∧
      ∀ b2 ch h2 f2, b.Reshape s ss h fr = .ok (b2, ch, h2, f2) → b2.count_ = s.prod := by
  constructor
  · rw [Blob.Reshape_isOk_iff]
    constructor
    · rintro ⟨hlen, hok⟩
      refine ⟨hlen, ?_⟩
      intro i hi
      have hstep := (countLoop_ok_iff s 1).mp hok i hi
      simpa [one_mul] using hstep
    · rintro ⟨hlen, hsc⟩
      refine ⟨hlen, ?_⟩
      apply (countLoop_ok_iff s 1).mpr
      intro i hi
      have hstep := hsc i hi
      simpa [one_mul] using hstep
  · intro b2 ch h2 f2 hr
    obtain ⟨_, hcl, _⟩ := Blob.Reshape_ok_spec b s ss h fr b2 ch h2 f2 hr
    have := countLoop_ok_prod s 1 b2.count_ hcl
    simpa [one_mul] using this

/-- Claim C2 witness: the shape `[2, 3]` passes the checks, so the
reshape of `c1_in` succeeds. -/
theorem C2_witness : isOkB (c1_in.Reshape [2, 3] [2, 3] [] 5) = true :=
  (C2_reshape_count_and_overflow_checks c1_in [2, 3] [2, 3] [] 5).1.mpr
    ⟨by decide, by decide⟩

/-- Claim C10: `Reshape` applied to the empty shape sequence computes
`count = 1` (the empty product), and constructing a tensor with the
degenerate empty shape allocates one-element values and gradients
buffers and reports `count = 1`. -/
theorem C10_empty_shape_count_one (b : Blob) (h : Heap) (fr : Nat) :
    (∀ b2 ch h2 f2, b.Reshape [] [] h fr = .ok (b2, ch, h2, f2) → b2.count_ = 1) ∧
      (Blob.construct .float32 []).toOption.map
          (fun r => (r.1.count_, r.1.capacity_, r.1.data_, r.1.diff_))
        = some (1, 1, some ⟨1, 1 * DtypeK.float32.size⟩, some ⟨2, 1 * DtypeK.float32.size⟩) := by
  constructor
  · intro b2 ch h2 f2 hr
    obtain ⟨_, hcl, _⟩ := Blob.Reshape_ok_spec b [] [] h fr b2 ch h2 f2 hr
    have h1 : (Except.ok 1 : Except String Int) = .ok b2.count_ := hcl
    exact (Except.ok.inj h1).symm
  · decide

/-- Claim C10 witness: reshaping `c1_in` to the empty shape yields
count 1. -/
theorem C10_witness : c10_out.count_ = 1 :=
  (C10_empty_shape_count_one c1_in [] 5).1 c10_out false [] 5 rfl

/-! ### Claim C3: buffer sharing -/

/-- Claim C3: `ShareData` and `ShareDiff` require equal element counts
(fatal on violation) and, on success, reassign this tensor's buffer
handle to the other tensor's underlying buffer object, copying no
element data (the operation takes and touches no heap); afterwards the
two tensors hold the same handle, so a heap mutation through one is
observed through the other's handle. -/
theorem C3_share_aliasing (a bo : Blob) :
    ((isOkB (a.ShareData bo) = true) ↔ a.count_ = bo.count_) ∧
      (∀ a2, a.ShareData bo = .ok a2 →
        a2.data_ = bo.data_ ∧ a2.diff_ = a.diff_ ∧ a2.count_ = a.count_ ∧
          a2.shape_ = a.shape_ ∧ a2.capacity_ = a.capacity_ ∧
          (∀ m : MemRef, bo.data_ = some m →
            ∀ (h : Heap) (st : MemState), (h.set m.id st).get? m.id = some st)) ∧
      ((isOkB (a.ShareDiff bo) = true) ↔ a.count_ = bo.count_) ∧
      (∀ a2, a.ShareDiff bo = .ok a2 →
        a2.diff_ = bo.diff_ ∧ a2.data_ = a.data_ ∧ a2.count_ = a.count_ ∧
          a2.shape_ = a.shape_ ∧ a2.capacity_ = a.capacity_ ∧
          (∀ m : MemRef, bo.diff_ = some m →
            ∀ (h : Heap) (st : MemState), (h.set m.id st).get? m.id = some st)) := by
  refine ⟨?_, ?_, ?_, ?_⟩
  · unfold Blob.ShareData
    split
    · rename_i hc; simp [isOkB, hc]
    · rename_i hc; simp [isOkB, hc]
  · intro a2 hs
    unfold Blob.ShareData at hs
    split at hs
    · rename_i hc
      simp only [Except.ok.injEq] at hs
      subst hs
      exact ⟨rfl, rfl, rfl, rfl, rfl, fun m _ h st => Heap.get_set_self h m.id st⟩
    · exact Except.noConfusion hs
  · unfold Blob.ShareDiff
    split
    · rename_i hc; simp [isOkB, hc]
    · rename_i hc; simp [isOkB, hc]
  · intro a2 hs
    unfold Blob.ShareDiff at hs
    split at hs
    · rename_i hc
      simp only [Except.ok.injEq] at hs
      subst hs
      exact ⟨rfl, rfl, rfl, rfl, rfl, fun m _ h st => Heap.get_set_self h m.id st⟩
    · exact Except.noConfusion hs

/-- Claim C3 witness: sharing between two equal-count blobs succeeds
and aliases the values handle. -/
theorem C3_witness :
    isOkB (c10_out.ShareData c1_in) = true ∧
      ∀ a2, c10_out.ShareData c1_in = .ok a2 → a2.data_ = c1_in.data_ := by
  have hmain := C3_share_aliasing c10_out c1_in
  exact ⟨hmain.1.mpr (by decide), fun a2 hs => ((hmain.2.1) a2 hs).1⟩

/-! ### Claims C4, C5: residency dispatch and integer specializations -/

/-- Claim C4: on a floating-element tensor whose buffer's residency
state is `UNINITIALIZED`, the sum-of-abs and sum-of-squares reductions
return zero and scaling is a no-op (for the values and the gradients
side alike), while `Update` on a values buffer in that state is a
fatal failure. -/
theorem C4_uninitialized_dispatch (b : Blob) (h : Heap) (factor : ℚ)
    (hflt : b.dtype.isInteger = false) :
    (∀ dm : MemRef, ∀ vs : List ℚ,
      b.data_ = some dm → h.get? dm.id = some ⟨.UNINITIALIZED, vs⟩ →
        b.asum_data h = .ok 0 ∧ b.sumsq_data h = .ok 0 ∧
          b.scale_data factor h = .ok h ∧ b.Update h = .error errUninitMem) ∧
    (∀ fm : MemRef, ∀ vs : List ℚ,
      b.diff_ = some fm → h.get? fm.id = some ⟨.UNINITIALIZED, vs⟩ →
        b.asum_diff h = .ok 0 ∧ b.sumsq_diff h = .ok 0 ∧
          b.scale_diff factor h = .ok h) := by
  constructor
  · intro dm vs hdm hlook
    refine ⟨?_, ?_, ?_, ?_⟩
    · simp [Blob.asum_data, hflt, hdm, hlook]
    · simp [Blob.sumsq_data, hflt, hdm, hlook]
    · simp [Blob.scale_data, hflt, hdm, hlook]
    · simp [Blob.Update, hflt, hdm, hlook]
  · intro fm vs hfm hlook
    refine ⟨?_, ?_, ?_⟩
    · simp [Blob.asum_diff, hflt, hfm, hlook]
    · simp [Blob.sumsq_diff, hflt, hfm, hlook]
    · simp [Blob.scale_diff, hflt, hfm, hlook]

/-- A float blob whose buffers exist but are uninitialized (ids 0-2). -/
def c4_blob : Blob :=
  ⟨.float32, [2], [2], 2, 2, some ⟨0, 8⟩, some ⟨1, 8⟩, some ⟨2, 8⟩, [2]⟩

/-- A heap where both of `c4_blob`'s buffers are uninitialized. -/
def c4_heap : Heap :=
  [(0, ⟨.UNINITIALIZED, []⟩), (1, ⟨.UNINITIALIZED, []⟩)]

/-- Claim C4 witness: on `c4_blob` with uninitialized buffers, asum is
zero and Update is fatal. -/
theorem C4_witness :
    c4_blob.asum_data c4_heap = .ok 0 ∧ c4_blob.Update c4_heap = .error errUninitMem := by
  have hmain :=
    (C4_uninitialized_dispatch c4_blob c4_heap 2 (by decide)).1
      ⟨0, 8⟩ [] (by decide) (by decide)
  exact ⟨hmain.1, hmain.2.2.2⟩

/-- Claim C5: on an integer-element tensor (signed or unsigned, any
width), `Update`, scaling, sum-of-abs and sum-of-squares are
unconditionally fatal `NOT_IMPLEMENTED` failures, in every buffer
state — never silently computed arithmetic. -/
theorem C5_integer_not_implemented (b : Blob) (h : Heap) (factor : ℚ)
    (hint : b.dtype.isInteger = true) :
    b.Update h = .error errNotImplemented ∧
      b.asum_data h = .error errNotImplemented ∧
      b.asum_diff h = .error errNotImplemented ∧
      b.sumsq_data h = .error errNotImplemented ∧
      b.sumsq_diff h = .error errNotImplemented ∧
      b.scale_data factor h = .error errNotImplemented ∧
      b.scale_diff factor h = .error errNotImplemented := by
  unfold Blob.Update Blob.asum_data Blob.asum_diff Blob.sumsq_data Blob.sumsq_diff
    Blob.scale_data Blob.scale_diff
  rw [hint]
  exact ⟨rfl, rfl, rfl, rfl, rfl, rfl, rfl⟩

/-- An int32 blob with a live, host-resident values buffer. -/
def c5_blob : Blob :=
  ⟨.i32, [2], [2], 2, 2, some ⟨0, 8⟩, some ⟨1, 8⟩, some ⟨2, 8⟩, [2]⟩

/-- A heap where `c5_blob`'s buffers are host-resident with contents. -/
def c5_heap : Heap :=
  [(0, ⟨.HEAD_AT_CPU, [3, 4]⟩), (1, ⟨.HEAD_AT_CPU, [1, 2]⟩)]

/-- Claim C5 witness: every reduction on the int32 blob fails with the
unimplemented-operation error, even with live host data. -/
theorem C5_witness :
    c5_blob.Update c5_heap = .error errNotImplemented ∧
      c5_blob.asum_data c5_heap = .error errNotImplemented := by
  have hmain := C5_integer_not_implemented c5_blob c5_heap 2 (by decide)
  exact ⟨hmain.1, hmain.2.1⟩

/-! ### Claim C9: quantized sumsq_diff reuses the data reduction -/

/-- A float blob with host-resident data `[1]` and diff `[2]`. -/
def c9_blob : Blob :=
  ⟨.float32, [1], [1], 1, 1, some ⟨0, 4⟩, some ⟨1, 4⟩, some ⟨2, 4⟩, [1]⟩

/-- The heap backing `c9_blob`. -/
def c9_heap : Heap :=
  [(0, ⟨.HEAD_AT_CPU, [1]⟩), (1, ⟨.HEAD_AT_CPU, [2]⟩)]

/-- Claim C9: the quantized-accessor form of gradient sum-of-squares
passes the result of the VALUES sum-of-squares, not the gradients
sum-of-squares, through the quantizer transform — for every tensor the
output is the transform of `sumsq_data`, and there are tensors on
which this diverges from transforming the raw `sumsq_diff`. -/
theorem C9_quantized_sumsq_diff_uses_data :
    (∀ (b : Blob) (h : Heap) (q : ℚ → ℚ),
        b.sumsq_diff_quant h q = (b.sumsq_data h).map q) ∧
      ∃ (b : Blob) (h : Heap) (q : ℚ → ℚ) (r1 r2 : ℚ),
        b.sumsq_data h = .ok r1 ∧ b.sumsq_diff h = .ok r2 ∧
          b.sumsq_diff_quant h q = .ok (q r1) ∧
          (b.sumsq_diff h).map q = .ok (q r2) ∧ q r1 ≠ q r2 := by
  constructor
  · intro b h q
    cases hsd : b.sumsq_data h with
    | error e => simp [Blob.sumsq_diff_quant, Except.map, hsd]
    | ok v => simp [Blob.sumsq_diff_quant, Except.map, hsd]
  · exact ⟨c9_blob, c9_heap, fun x => x, 1, 4, by with_unfolding_all rfl,
            by with_unfolding_all rfl, by with_unfolding_all rfl,
            by with_unfolding_all rfl, by decide⟩

/-! ### Claim C7: legacy shape comparison -/

theorem padTo4_eq (s : List Int) (hs : s.length ≤ 4) :
    padTo4 s = [LegacyShape s 4, LegacyShape s 3, LegacyShape s 2, LegacyShape s 1] := by
  match s with
  | [] => rfl
  | [a] => rfl
  | [a, b] => rfl
  | [a, b, c] => rfl
  | [a, b, c, d] => rfl
  | a :: b :: c :: d :: e :: t =>
    exfalso
    simp only [List.length_cons] at hs
    omega

/-- The blob of shape `[1, 1, 1, 5]` from the spec's example. -/
def c7_blob : Blob :=
  ⟨.float32, [1, 1, 1, 5], [], 5, 5, none, none, none, []⟩

/-- The legacy descriptor num=1, channels=1, height=1, width=5. -/
def c7_proto : BlobProto :=
  { BlobProto.empty with num := some 1, channels := some 1, height := some 1,
                         width := some 5 }

/-- Claim C7: against a descriptor using any legacy field, `ShapeEquals`
returns true exactly when the local rank is at most 4 and the last four
logical axes (indexed from the end, missing leading axes treated as
extent 1) equal num, channels, height, width; against an explicit shape
list it is the exact element-wise comparison; in particular `[1,1,1,5]`
matches the legacy descriptor num=1, channels=1, height=1, width=5. -/
theorem C7_shape_equals_legacy (b : Blob) (p : BlobProto) :
    (hasLegacyFields p = true →
      (b.ShapeEquals p = true ↔
        b.shape_.length ≤ 4 ∧
          padTo4 b.shape_
            = [p.num.getD 0, p.channels.getD 0, p.height.getD 0, p.width.getD 0])) ∧
      (hasLegacyFields p = false → (b.ShapeEquals p = true ↔ b.shape_ = p.shape)) ∧
      c7_blob.ShapeEquals c7_proto = true := by
  refine ⟨?_, ?_, by decide⟩
  · intro hleg
    unfold Blob.ShapeEquals
    simp only [hleg, if_true]
    constructor
    · intro hb
      simp only [Bool.and_eq_true, decide_eq_true_eq, beq_iff_eq] at hb
      obtain ⟨⟨⟨⟨hlen, h4⟩, h3⟩, h2⟩, h1⟩ := hb
      refine ⟨hlen, ?_⟩
      rw [padTo4_eq b.shape_ hlen, h4, h3, h2, h1]
    · rintro ⟨hlen, hpad⟩
      rw [padTo4_eq b.shape_ hlen] at hpad
      simp only [List.cons.injEq, and_true] at hpad
      obtain ⟨h4, h3, h2, h1⟩ := hpad
      simp [Bool.and_eq_true, decide_eq_true_eq, beq_iff_eq, hlen, h4, h3, h2, h1]
  · intro hleg
    unfold Blob.ShapeEquals
    simp [hleg]

/-- Claim C7 witness: the `[1,1,1,5]` tensor matches the legacy
descriptor through the padded last-four-axes reading. -/
theorem C7_witness : c7_blob.ShapeEquals c7_proto = true :=
  ((C7_shape_equals_legacy c7_blob c7_proto).1 (by decide)).mpr ⟨by decide, by decide⟩

/-! ### FromProto lemmas -/

theorem Blob.FromProto_ok_spec (b : Blob) (p : BlobProto) (rs : Bool) (h : Heap) (fr : Nat)
    (b2 : Blob) (h2 : Heap) (f2 : Nat)
    (hr : b.FromProto p rs h fr = .ok (b2, h2, f2)) :
    ∃ ch h1 f1,
      (if rs then b.Reshape (protoShapeOf p) (protoShapeOf p) h fr
       else if b.ShapeEquals p then Except.ok (b, false, h, fr)
       else Except.error errShapeMismatch) = .ok (b2, ch, h1, f1) ∧
      f2 = f1 ∧
      ∃ dm dst src,
        b2.data_ = some dm ∧ h1.get? dm.id = some dst ∧
        ((0 < p.double_data.length ∧ b2.count_ = (p.double_data.length : Int) ∧
            src = p.double_data) ∨
          (p.double_data.length = 0 ∧ b2.count_ = (p.data.length : Int) ∧ src = p.data)) ∧
        ((0 < p.double_diff.length ∧ b2.count_ = (p.double_diff.length : Int) ∧
            ∃ fm fst, b2.diff_ = some fm ∧
              (h1.set dm.id ⟨.HEAD_AT_CPU, src ++ dst.vals.drop src.length⟩).get? fm.id
                = some fst ∧
              h2 = (h1.set dm.id ⟨.HEAD_AT_CPU, src ++ dst.vals.drop src.length⟩).set fm.id
                ⟨.HEAD_AT_CPU, p.double_diff ++ fst.vals.drop p.double_diff.length⟩) ∨
          (p.double_diff.length = 0 ∧ 0 < p.diff.length ∧
            b2.count_ = (p.diff.length : Int) ∧
            ∃ fm fst, b2.diff_ = some fm ∧
              (h1.set dm.id ⟨.HEAD_AT_CPU, src ++ dst.vals.drop src.length⟩).get? fm.id
                = some fst ∧
              h2 = (h1.set dm.id ⟨.HEAD_AT_CPU, src ++ dst.vals.drop src.length⟩).set fm.id
                ⟨.HEAD_AT_CPU, p.diff ++ fst.vals.drop p.diff.length⟩) ∨
          (p.double_diff.length = 0 ∧ p.diff.length = 0 ∧
            h2 = h1.set dm.id ⟨.HEAD_AT_CPU, src ++ dst.vals.drop src.length⟩)) := by
  unfold Blob.FromProto at hr
  split at hr
  · exact Except.noConfusion hr
  · rename_i b1 chx h1 f1 hstage
    split at hr
    · exact Except.noConfusion hr
    · rename_i dm hdm
      split at hr
      · exact Except.noConfusion hr
      · rename_i dst hdst
        split at hr
        · exact Except.noConfusion hr
        · rename_i src hsrc
          -- characterize the data payload choice
          have hdata :
              (0 < p.double_data.length ∧ b1.count_ = (p.double_data.length : Int) ∧
                  src = p.double_data) ∨
                (p.double_data.length = 0 ∧ b1.count_ = (p.data.length : Int) ∧
                  src = p.data) := by
            split at hsrc
            · rename_i hdd
              split at hsrc
              · rename_i hcnt
                exact Or.inl ⟨hdd, hcnt, (Except.ok.inj hsrc).symm⟩
              · exact Except.noConfusion hsrc
            · rename_i hdd
              split at hsrc
              · rename_i hcnt
                exact Or.inr ⟨by omega, hcnt, (Except.ok.inj hsrc).symm⟩
              · exact Except.noConfusion hsrc
          -- now the diff section
          split at hr
          · rename_i hdd
            split at hr
            · rename_i hcnt
              split at hr
              · exact Except.noConfusion hr
              · rename_i fm hfm
                split at hr
                · exact Except.noConfusion hr
                · rename_i fst hfst
                  simp only [Except.ok.injEq, Prod.mk.injEq] at hr
                  obtain ⟨hb2, hh2, hf2⟩ := hr
                  subst hb2; subst hh2; subst hf2
                  exact ⟨chx, h1, f1, hstage, rfl, dm, dst, src, hdm, hdst, hdata,
                         Or.inl ⟨hdd, hcnt, fm, fst, hfm, hfst, rfl⟩⟩
            · exact Except.noConfusion hr
          · rename_i hdd
            split at hr
            · rename_i hdf
              split at hr
              · rename_i hcnt
                split at hr
                · exact Except.noConfusion hr
                · rename_i fm hfm
                  split at hr
                  · exact Except.noConfusion hr
                  · rename_i fst hfst
                    simp only [Except.ok.injEq, Prod.mk.injEq] at hr
                    obtain ⟨hb2, hh2, hf2⟩ := hr
                    subst hb2; subst hh2; subst hf2
                    exact ⟨chx, h1, f1, hstage, rfl, dm, dst, src, hdm, hdst, hdata,
                           Or.inr (Or.inl ⟨by omega, hdf, hcnt, fm, fst, hfm, hfst, rfl⟩)⟩
              · exact Except.noConfusion hr
            · rename_i hdf
              simp only [Except.ok.injEq, Prod.mk.injEq] at hr
              obtain ⟨hb2, hh2, hf2⟩ := hr
              subst hb2; subst hh2; subst hf2
              exact ⟨chx, h1, f1, hstage, rfl, dm, dst, src, hdm, hdst, hdata,
                     Or.inr (Or.inr ⟨by omega, by omega, rfl⟩)⟩

/-! ### Claim C6: FromProto shape handling and count checks -/

/-- Claim C6: `FromProto` with `reshape=false` against a message whose
shape does not match is a fatal failure; with `reshape=true` it derives
the target shape from the message (legacy num/channels/height/width
when any is present, else the explicit shape list) and reshapes to it;
in either mode the message payload length must equal the tensor's
count exactly (fatal on mismatch), and gradient content is written to
the gradients buffer exactly when diff content is present in the
message. -/
theorem C6_fromProto_shape_and_counts (b : Blob) (p : BlobProto) (rs : Bool) (h : Heap)
    (fr : Nat) :
    (rs = false → b.ShapeEquals p = false →
      b.FromProto p rs h fr = .error errShapeMismatch) ∧
    (∀ b2 h2 f2, b.FromProto p true h fr = .ok (b2, h2, f2) →
      b2.shape_ = (if hasLegacyFields p then
          [p.num.getD 0, p.channels.getD 0, p.height.getD 0, p.width.getD 0]
        else p.shape)) ∧
    (∀ b2 h2 f2, b.FromProto p rs h fr = .ok (b2, h2, f2) →
      (0 < p.double_data.length → (p.double_data.length : Int) = b2.count_) ∧
      (p.double_data = [] → (p.data.length : Int) = b2.count_) ∧
      (0 < p.double_diff.length → (p.double_diff.length : Int) = b2.count_) ∧
      (p.double_diff = [] → 0 < p.diff.length → (p.diff.length : Int) = b2.count_)) ∧
    (∀ b2 h2 f2, b.FromProto p rs h fr = .ok (b2, h2, f2) → 0 < p.double_diff.length →
      ∃ fm vs, b2.diff_ = some fm ∧ h2.get? fm.id = some ⟨.HEAD_AT_CPU, vs⟩ ∧
        vs.take b2.count_.toNat = p.double_diff) ∧
    (∀ b2 h2 f2, b.FromProto p rs h fr = .ok (b2, h2, f2) → p.double_diff = [] →
        0 < p.diff.length →
      ∃ fm vs, b2.diff_ = some fm ∧ h2.get? fm.id = some ⟨.HEAD_AT_CPU, vs⟩ ∧
        vs.take b2.count_.toNat = p.diff) ∧
    (∀ b2 h2 f2 dm0 fm0, b.FromProto p false h fr = .ok (b2, h2, f2) →
      p.double_diff = [] → p.diff = [] → b.data_ = some dm0 → b.diff_ = some fm0 →
      fm0.id ≠ dm0.id → h2.get? fm0.id = h.get? fm0.id) := by
  refine ⟨?_, ?_, ?_, ?_, ?_, ?_⟩
  · intro hrs hse
    subst hrs
    unfold Blob.FromProto
    simp [hse]
  · intro b2 h2 f2 hr
    obtain ⟨ch, h1, f1, hstage, _⟩ := b.FromProto_ok_spec p true h fr b2 h2 f2 hr
    simp only [if_true] at hstage
    obtain ⟨_, _, hsh, _⟩ := Blob.Reshape_ok_spec b _ _ h fr b2 ch h1 f1 hstage
    rw [hsh]
    unfold protoShapeOf
    rfl
  · intro b2 h2 f2 hr
    obtain ⟨ch, h1, f1, hstage, hf2, dm, dst, src, hdm, hdst, hdata, hdiff⟩ :=
      b.FromProto_ok_spec p rs h fr b2 h2 f2 hr
    refine ⟨?_, ?_, ?_, ?_⟩
    · intro hdd
      rcases hdata with ⟨_, hcnt, _⟩ | ⟨hz, _, _⟩
      · exact hcnt.symm
      · omega
    · intro hddnil
      have hz : p.double_data.length = 0 := by rw [hddnil]; rfl
      rcases hdata with ⟨hpos, _, _⟩ | ⟨_, hcnt, _⟩
      · omega
      · exact hcnt.symm
    · intro hdd
      rcases hdiff with ⟨_, hcnt, _⟩ | ⟨hz, _, _⟩ | ⟨hz, _, _⟩
      · exact hcnt.symm
      · omega
      · omega
    · intro hddnil hdf
      have hz : p.double_diff.length = 0 := by rw [hddnil]; rfl
      rcases hdiff with ⟨hpos, _, _⟩ | ⟨_, _, hcnt, _⟩ | ⟨_, hdz, _⟩
      · omega
      · exact hcnt.symm
      · omega
  · intro b2 h2 f2 hr hdd
    obtain ⟨ch, h1, f1, hstage, hf2, dm, dst, src, hdm, hdst, hdata, hdiff⟩ :=
      b.FromProto_ok_spec p rs h fr b2 h2 f2 hr
    rcases hdiff with ⟨_, hcnt, fm, fst, hfm, hfst, hh2⟩ | ⟨hz, _⟩ | ⟨hz, _⟩
    · refine ⟨fm, p.double_diff ++ fst.vals.drop p.double_diff.length, hfm, ?_, ?_⟩
      · rw [hh2]
        exact Heap.get_set_self _ _ _
      · rw [hcnt]
        simp [List.take_left]
    · omega
    · omega
  · intro b2 h2 f2 hr hddnil hdf
    obtain ⟨ch, h1, f1, hstage, hf2, dm, dst, src, hdm, hdst, hdata, hdiff⟩ :=
      b.FromProto_ok_spec p rs h fr b2 h2 f2 hr
    have hz : p.double_diff.length = 0 := by rw [hddnil]; rfl
    rcases hdiff with ⟨hpos, _⟩ | ⟨_, _, hcnt, fm, fst, hfm, hfst, hh2⟩ | ⟨_, hdz, _⟩
    · omega
    · refine ⟨fm, p.diff ++ fst.vals.drop p.diff.length, hfm, ?_, ?_⟩
      · rw [hh2]
        exact Heap.get_set_self _ _ _
      · rw [hcnt]
        simp [List.take_left]
    · omega
  · intro b2 h2 f2 dm0 fm0 hr hddnil hdfnil hbdm hbfm hne
    obtain ⟨ch, h1, f1, hstage, hf2, dm, dst, src, hdm, hdst, hdata, hdiff⟩ :=
      b.FromProto_ok_spec p false h fr b2 h2 f2 hr
    have hz : p.double_diff.length = 0 := by rw [hddnil]; rfl
    have hdz : p.diff.length = 0 := by rw [hdfnil]; rfl
    -- non-reshaping stage: b2 = b, h1 = h
    simp only [Bool.false_eq_true, if_false] at hstage
    by_cases hse : b.ShapeEquals p = true
    · rw [hse] at hstage
      simp only [if_true, Except.ok.injEq, Prod.mk.injEq] at hstage
      obtain ⟨hb2, hch, hh1, hf1⟩ := hstage
      subst hb2; subst hh1
      rcases hdiff with ⟨hpos, _⟩ | ⟨_, hpos, _⟩ | ⟨_, _, hh2⟩
      · omega
      · omega
      · rw [hh2]
        have hdmdm0 : dm = dm0 := by
          rw [hbdm] at hdm
          exact (Option.some.inj hdm).symm
        rw [hdmdm0]
        exact Heap.get_set_ne h dm0.id fm0.id _ hne
    · simp only [hse, if_false] at hstage
      exact Except.noConfusion hstage

/-- A message with explicit shape `[3]` (no legacy fields). -/
def c6_proto : BlobProto :=
  { BlobProto.empty with shape := [3], data := [1, 2, 3] }

/-- Claim C6 witness: a non-reshaping deserialize into the `[1]`-shaped
`c1_in` from a `[3]`-shaped message is the fatal shape-mismatch
failure. -/
theorem C6_witness : c1_in.FromProto c6_proto false [] 0 = .error errShapeMismatch :=
  (C6_fromProto_shape_and_counts c1_in c6_proto false [] 0).1 rfl (by decide)

/-! ### Claim C8: proto round-trip -/

/-- Claim C8: for a float- or double-element tensor with host-resident
values and gradients, `ToProto` (with `write_diff` as requested)
followed by `FromProto` into a tensor of matching shape succeeds and
reproduces the original values exactly, and the original gradients
exactly when `write_diff` was requested. -/
theorem C8_proto_roundtrip (b b2 : Blob) (h h2 : Heap) (fr : Nat) (wd : Bool)
    (dm fm dm2 fm2 : MemRef) (dvs fvs : List ℚ) (st2 sf2 : MemState)
    (hd : b.dtype = .float32 ∨ b.dtype = .double64)
    (hpos : 0 < b.count_)
    (hdm : b.data_ = some dm) (hdst : h.get? dm.id = some ⟨.HEAD_AT_CPU, dvs⟩)
    (hdl : dvs.length = b.count_.toNat)
    (hfm : b.diff_ = some fm) (hfst : h.get? fm.id = some ⟨.HEAD_AT_CPU, fvs⟩)
    (hfl : fvs.length = b.count_.toNat)
    (hstr : b.shape_.length ≤ b.shape_stride_.length)
    (hsh : b2.shape_ = b.shape_) (hc2 : b2.count_ = b.count_)
    (hdm2 : b2.data_ = some dm2) (hst2 : h2.get? dm2.id = some st2)
    (hfm2 : b2.diff_ = some fm2) (hsf2 : h2.get? fm2.id = some sf2)
    (hne : fm2.id ≠ dm2.id) :
    ∃ p2 h3 vs ws,
      b.ToProto h wd = .ok p2 ∧
      b2.FromProto p2 false h2 fr = .ok (b2, h3, fr) ∧
      h3.get? dm2.id = some ⟨.HEAD_AT_CPU, vs⟩ ∧
      vs.take b.count_.toNat = dvs ∧
      (wd = true → h3.get? fm2.id = some ⟨.HEAD_AT_CPU, ws⟩ ∧
        ws.take b.count_.toNat = fvs) := by
  have hstr2 : ¬ (b.shape_stride_.length < b.shape_.length) := by omega
  have htake_d : dvs.take b.count_.toNat = dvs := by
    rw [← hdl]; exact List.take_length dvs
  have htake_f : fvs.take b.count_.toNat = fvs := by
    rw [← hfl]; exact List.take_length fvs
  have hcd : b2.count_ = ((dvs.length : Nat) : Int) := by
    rw [hc2, hdl]; exact (Int.toNat_of_nonneg (by omega)).symm
  have hcf : b2.count_ = ((fvs.length : Nat) : Int) := by
    rw [hc2, hfl]; exact (Int.toNat_of_nonneg (by omega)).symm
  have hdpos : 0 < dvs.length := by omega
  have hfpos : 0 < fvs.length := by omega
  have htdvs : (dvs ++ st2.vals.drop dvs.length).take b.count_.toNat = dvs := by
    rw [← hdl]; exact List.take_left dvs _
  have htfvs : (fvs ++ sf2.vals.drop fvs.length).take b.count_.toNat = fvs := by
    rw [← hfl]; exact List.take_left fvs _
  have hgetDne : ∀ st st2x : MemState,
      ((h2.set dm2.id st).set fm2.id st2x).get? dm2.id = some st := by
    intro st st2x
    rw [Heap.get_set_ne _ _ _ _ (Ne.symm hne)]
    exact Heap.get_set_self _ _ _
  have hgetD : ∀ st : MemState, (h2.set dm2.id st).get? fm2.id = some sf2 := by
    intro st
    rw [Heap.get_set_ne _ _ _ _ hne]
    exact hsf2
  rcases hd with hd | hd
  · -- float32
    cases wd with
    | true =>
      have htp : b.ToProto h true
          = .ok ⟨none, none, none, none, b.shape_, b.shape_stride_.take b.shape_.length,
                 dvs, fvs, [], [], [], some b.dtype⟩ := by
        simp [Blob.ToProto, hstr2, Blob.cpu_data_read, hdm, hdst, Blob.cpu_diff_read,
              hfm, hfst, cpuRead, htake_d, htake_f, hd, BlobProto.empty]
      have hse : b2.ShapeEquals
          (⟨none, none, none, none, b.shape_, b.shape_stride_.take b.shape_.length,
            dvs, fvs, [], [], [], some b.dtype⟩ : BlobProto) = true := by
        simp [Blob.ShapeEquals, hasLegacyFields, hsh]
      have hfp : b2.FromProto
          (⟨none, none, none, none, b.shape_, b.shape_stride_.take b.shape_.length,
            dvs, fvs, [], [], [], some b.dtype⟩ : BlobProto) false h2 fr
          = .ok (b2,
                 (h2.set dm2.id ⟨.HEAD_AT_CPU, dvs ++ st2.vals.drop dvs.length⟩).set
                   fm2.id ⟨.HEAD_AT_CPU, fvs ++ sf2.vals.drop fvs.length⟩,
                 fr) := by
        simp [Blob.FromProto, hse, hdm2, hst2, hfm2, ← hcd, ← hcf, hfpos, hgetD]
      exact ⟨_, _, _, _, htp, hfp, hgetDne _ _, htdvs,
             fun _ => ⟨Heap.get_set_self _ _ _, htfvs⟩⟩
    | false =>
      have htp : b.ToProto h false
          = .ok ⟨none, none, none, none, b.shape_, b.shape_stride_.take b.shape_.length,
                 dvs, [], [], [], [], some b.dtype⟩ := by
        simp [Blob.ToProto, hstr2, Blob.cpu_data_read, hdm, hdst, cpuRead, htake_d, hd,
              BlobProto.empty]
      have hse : b2.ShapeEquals
          (⟨none, none, none, none, b.shape_, b.shape_stride_.take b.shape_.length,
            dvs, [], [], [], [], some b.dtype⟩ : BlobProto) = true := by
        simp [Blob.ShapeEquals, hasLegacyFields, hsh]
      have hfp : b2.FromProto
          (⟨none, none, none, none, b.shape_, b.shape_stride_.take b.shape_.length,
            dvs, [], [], [], [], some b.dtype⟩ : BlobProto) false h2 fr
          = .ok (b2, h2.set dm2.id ⟨.HEAD_AT_CPU, dvs ++ st2.vals.drop dvs.length⟩, fr) := by
        simp [Blob.FromProto, hse, hdm2, hst2, ← hcd]
      exact ⟨_, _, _, [], htp, hfp, Heap.get_set_self _ _ _, htdvs,
             fun hfalse => absurd hfalse (by simp)⟩
  · -- double64
    cases wd with
    | true =>
      have htp : b.ToProto h true
          = .ok ⟨none, none, none, none, b.shape_, b.shape_stride_.take b.shape_.length,
                 [], [], dvs, fvs, [], some b.dtype⟩ := by
        simp [Blob.ToProto, hstr2, Blob.cpu_data_read, hdm, hdst, Blob.cpu_diff_read,
              hfm, hfst, cpuRead, htake_d, htake_f, hd, BlobProto.empty]
      have hse : b2.ShapeEquals
          (⟨none, none, none, none, b.shape_, b.shape_stride_.take b.shape_.length,
            [], [], dvs, fvs, [], some b.dtype⟩ : BlobProto) = true := by
        simp [Blob.ShapeEquals, hasLegacyFields, hsh]
      have hfp : b2.FromProto
          (⟨none, none, none, none, b.shape_, b.shape_stride_.take b.shape_.length,
            [], [], dvs, fvs, [], some b.dtype⟩ : BlobProto) false h2 fr
          = .ok (b2,
                 (h2.set dm2.id ⟨.HEAD_AT_CPU, dvs ++ st2.vals.drop dvs.length⟩).set
                   fm2.id ⟨.HEAD_AT_CPU, fvs ++ sf2.vals.drop fvs.length⟩,
                 fr) := by
        simp [Blob.FromProto, hse, hdm2, hst2, hfm2, ← hcd, ← hcf, hdpos, hfpos, hgetD]
      exact ⟨_, _, _, _, htp, hfp, hgetDne _ _, htdvs,
             fun _ => ⟨Heap.get_set_self _ _ _, htfvs⟩⟩
    | false =>
      have htp : b.ToProto h false
          = .ok ⟨none, none, none, none, b.shape_, b.shape_stride_.take b.shape_.length,
                 [], [], dvs, [], [], some b.dtype⟩ := by
        simp [Blob.ToProto, hstr2, Blob.cpu_data_read, hdm, hdst, cpuRead, htake_d, hd,
              BlobProto.empty]
      have hse : b2.ShapeEquals
          (⟨none, none, none, none, b.shape_, b.shape_stride_.take b.shape_.length,
            [], [], dvs, [], [], some b.dtype⟩ : BlobProto) = true := by
        simp [Blob.ShapeEquals, hasLegacyFields, hsh]
      have hfp : b2.FromProto
          (⟨none, none, none, none, b.shape_, b.shape_stride_.take b.shape_.length,
            [], [], dvs, [], [], some b.dtype⟩ : BlobProto) false h2 fr
          = .ok (b2, h2.set dm2.id ⟨.HEAD_AT_CPU, dvs ++ st2.vals.drop dvs.length⟩, fr) := by
        simp [Blob.FromProto, hse, hdm2, hst2, ← hcd, hdpos]
      exact ⟨_, _, _, [], htp, hfp, Heap.get_set_self _ _ _, htdvs,
             fun hfalse => absurd hfalse (by simp)⟩

/-- A float source blob of shape `[2]` with data `[3, 4]`, diff `[5, 6]`. -/
def c8_b : Blob :=
  ⟨.float32, [2], [2], 2, 2, some ⟨0, 8⟩, some ⟨1, 8⟩, some ⟨2, 8⟩, [2]⟩

/-- The heap backing `c8_b`. -/
def c8_h : Heap :=
  [(0, ⟨.HEAD_AT_CPU, [3, 4]⟩), (1, ⟨.HEAD_AT_CPU, [5, 6]⟩)]

/-- A matching-shape destination blob with its own buffers (ids 10, 11). -/
def c8_b2 : Blob :=
  ⟨.float32, [2], [2], 2, 2, some ⟨10, 8⟩, some ⟨11, 8⟩, some ⟨12, 8⟩, [2]⟩

/-- The heap backing `c8_b2` (buffers still uninitialized). -/
def c8_h2 : Heap :=
  [(10, ⟨.UNINITIALIZED, []⟩), (11, ⟨.UNINITIALIZED, []⟩)]

/-- Claim C8 witness: serializing `c8_b` with diff and deserializing
into `c8_b2` reproduces data `[3, 4]` and diff `[5, 6]`. -/
theorem C8_witness :
    ∃ p2 h3 vs ws,
      c8_b.ToProto c8_h true = .ok p2 ∧
      c8_b2.FromProto p2 false c8_h2 0 = .ok (c8_b2, h3, 0) ∧
      h3.get? 10 = some ⟨.HEAD_AT_CPU, vs⟩ ∧
      vs.take c8_b.count_.toNat = [3, 4] ∧
      (true = true → h3.get? 11 = some ⟨.HEAD_AT_CPU, ws⟩ ∧
        ws.take c8_b.count_.toNat = [5, 6]) :=
  C8_proto_roundtrip c8_b c8_b2 c8_h c8_h2 0 true ⟨0, 8⟩ ⟨1, 8⟩ ⟨10, 8⟩ ⟨11, 8⟩
    [3, 4] [5, 6] ⟨.UNINITIALIZED, []⟩ ⟨.UNINITIALIZED, []⟩
    (Or.inl rfl) (by decide) rfl (by decide) rfl rfl (by decide) rfl
    (by decide) rfl rfl rfl (by decide) rfl (by decide) (by decide)
